import Mathlib

/-!
# Verification of the namedb Name Relatedness Engine

Shallow embedding of the similarity-scoring core of the name-catalog
application (`nameSimilarity` module and `phoneticUtils`), together with
proofs about it.

Modelling conventions:
* JavaScript strings are Lean `String`s; all character-level operations are
  carried out on `String.data` (`List Char`) with structurally recursive
  helpers so that every definition evaluates inside the kernel.
  `toLowerCase` is modelled by `Char.toLower` (the inputs of interest are
  ASCII), `trim` by dropping `Char.isWhitespace` characters at both ends,
  and JS `.length` (UTF-16 units) by the codepoint length, which agree on
  such inputs.
* JavaScript floating point threshold tests such as
  `distance <= maxLength * 0.3` are modelled exactly on rationals
  (`10 * distance <= 3 * maxLength`), and `Math.round(x / y)` by
  half-up rational rounding; for the small integer inputs occurring here
  these agree with IEEE doubles.
* Optional (`undefined`) fields are `Option`s, and the JavaScript falsiness
  of the empty string is modelled explicitly where the source tests `!x`
  on a string.
-/

/-- JS `String.prototype.toLowerCase`, restricted to ASCII case mapping. -/
def jsLower (s : String) : String :=
  String.mk (s.data.map Char.toLower)

/-- Drop leading whitespace, as a list operation. -/
def dropLeadingWS (l : List Char) : List Char :=
  l.dropWhile Char.isWhitespace

/-- JS `String.prototype.trim` on a character list. -/
def trimChars (l : List Char) : List Char :=
  ((dropLeadingWS l).reverse.dropWhile Char.isWhitespace).reverse

/-- JS `String.prototype.trim`. -/
def jsTrim (s : String) : String :=
  String.mk (trimChars s.data)

/-- Is `pat` a prefix of `l`? (helper for substring search). -/
def listStartsWith : List Char → List Char → Bool
  | _, [] => true
  | [], _ :: _ => false
  | c :: cs, p :: ps => c == p && listStartsWith cs ps

/-- Does `pat` occur as a contiguous substring of the list? -/
def listContainsSub (pat : List Char) : List Char → Bool
  | [] => pat.isEmpty
  | c :: cs => listStartsWith (c :: cs) pat || listContainsSub pat cs

/-- JS `a.includes(b)`: `sub` occurs as a substring of `s`. -/
def jsIncludes (s sub : String) : Bool :=
  listContainsSub sub.data s.data

/-- JS `String.prototype.split` with a single-character separator class:
each separator character produces one cut. -/
def splitOnChar (p : Char → Bool) : List Char → List (List Char)
  | [] => [[]]
  | c :: cs =>
    if p c then [] :: splitOnChar p cs
    else
      match splitOnChar p cs with
      | [] => [[c]]
      | h :: t => (c :: h) :: t

/-- JS `path.split(' > ')`: split on the three-character delimiter
`" > "`, scanning left to right, non-overlapping. -/
def splitArrow : List Char → List (List Char)
  | ' ' :: '>' :: ' ' :: rest => [] :: splitArrow rest
  | c :: rest =>
    match splitArrow rest with
    | [] => [[c]]
    | h :: t => (c :: h) :: t
  | [] => [[]]

/-- JS `parts.join(' > ')`. -/
def joinArrow : List (List Char) → List Char
  | [] => []
  | [x] => x
  | x :: y :: xs => x ++ (' ' :: '>' :: ' ' :: joinArrow (y :: xs))

/-- JS `Array.prototype.join(sep)` on strings. -/
def joinSep (sep : String) : List String → String
  | [] => ""
  | [x] => x
  | x :: y :: xs => x ++ sep ++ joinSep sep (y :: xs)

/-- `Math.round (num / den)` for non-negative arguments: round half up. -/
def jsRound (num den : Nat) : Nat :=
  (2 * num + den) / (2 * den)

-- ============= LEVENSHTEIN DISTANCE =============

/-- One cell-filling pass of the inner loop of `levenshteinDistance`:
given the previous row, the current character `c` of `str2`, the cell
diagonally above-left (`pDiag`), and the cell to the left (`cur`), produce
the remaining cells of the current row; the list pairs each remaining
character of `str1` with the cell above it (`pNext`). Mirrors
`matrix[i][j] = min(substitute, insert, delete)` from the source. -/
def levRowNextAux (c : Char) : List (Char × Nat) → Nat → Nat → List Nat
  | [], _, _ => []
  | (a, pNext) :: rest, pDiag, cur =>
    let v := if c = a then pDiag else min (pDiag + 1) (min (cur + 1) (pNext + 1))
    v :: levRowNextAux c rest pNext v

/-- Compute row `i+1` of the Levenshtein matrix from row `i` (`prev`) and
character `str2[i]` (`c`): the first cell is the first-column
initialisation `matrix[i+1][0] = i+1`. -/
def levRowNext (str1 : List Char) (prev : List Nat) (c : Char) : List Nat :=
  let h := prev.headD 0
  (h + 1) :: levRowNextAux c (str1.zip prev.tail) h (h + 1)

/-- `levenshteinDistance` from the source: the dynamic-programming matrix
is built row by row (row 0 is `0..str1.length`, one row per character of
`str2`) and the bottom-right cell `matrix[str2.length][str1.length]` is
returned. -/
def levenshteinDistance (str1 str2 : String) : Nat :=
  let row0 := List.range (str1.data.length + 1)
  let lastRow := str2.data.foldl (levRowNext str1.data) row0
  lastRow.getLastD 0

/-- The cell recurrence of the Levenshtein matrix, as a two-index
function: `levMatrixCell str1 str2 i j = matrix[i][j]` of the source's
dynamic-programming table (row index `i` ranges over `str2`, column index
`j` over `str1`). `levMatrixAux` is the inner recursion along a row. -/
def levMatrixAux (str1 str2 : List Char) (prev : Nat → Nat) (i : Nat) : Nat → Nat
  | 0 => i + 1
  | j + 1 =>
    if str2.getD i 'a' = str1.getD j 'a' then prev j
    else
      min (prev j + 1)
        (min (levMatrixAux str1 str2 prev i j + 1) (prev (j + 1) + 1))

/-- Row `i` of the Levenshtein matrix as a function of the column. -/
def levMatrixCell (str1 str2 : List Char) : Nat → Nat → Nat
  | 0 => fun j => j
  | i + 1 => levMatrixAux str1 str2 (levMatrixCell str1 str2 i) i

-- ============= SIMPLE LEGACY HELPERS =============

/-- `getSoundSimilarity`: spelling-based sound-alike test. Lower-case both
names; reject if the lengths differ by more than 3; otherwise true iff the
Levenshtein distance is at most 30% of the longer length and non-zero. -/
def getSoundSimilarity (name1 name2 : String) : Bool :=
  let n1 := jsLower name1
  let n2 := jsLower name2
  if max n1.length n2.length - min n1.length n2.length > 3 then false
  else
    let distance := levenshteinDistance n1 n2
    let maxLength := max n1.length n2.length
    decide (10 * distance ≤ 3 * maxLength) && decide (distance > 0)

/-- `getOriginSimilarity`: do the two origin lists share some exact
case-insensitive string? (missing or empty lists give `false`). -/
def getOriginSimilarity (origin1 origin2 : Option (List String)) : Bool :=
  match origin1, origin2 with
  | some o1, some o2 =>
    if o1.isEmpty || o2.isEmpty then false
    else o1.any fun s1 => o2.any fun s2 => jsLower s1 == jsLower s2
  | _, _ => false

/-- `getFeelingsSimilarity`: any case-insensitive overlap between the two
feeling-tag lists, where equal or one tag containing the other counts. -/
def getFeelingsSimilarity (feelings1 feelings2 : List String) : Bool :=
  if feelings1.isEmpty || feelings2.isEmpty then false
  else
    feelings1.any fun f1 =>
      feelings2.any fun f2 =>
        jsLower f1 == jsLower f2 ||
        jsIncludes (jsLower f1) (jsLower f2) ||
        jsIncludes (jsLower f2) (jsLower f1)

-- ============= ROOT PARSING & COMPARISON =============

/-- `ParsedRootElement`: one parsed component of a root descriptor. -/
structure ParsedRootElement where
  identifier : String
  explanation : Option String
  fullText : String
deriving DecidableEq

/-- `parseRootElement`: apply the regex
`^([^(]+?)(?:\s*\((.+)\))?$` to the trimmed element. The optional group
can only match at the first `'('`; the match succeeds iff either there is
no `'('` at all and the element is non-empty, or the first `'('` is not
the first character, the last character is `')'`, and at least one
character lies between them. On failure the whole trimmed lower-cased
string becomes the identifier. -/
def parseRootElement (element : String) : ParsedRootElement :=
  let t := jsTrim element
  let cs := t.data
  match cs.findIdx? (· = '(') with
  | none =>
    -- no parenthesis: the whole (trimmed, lower-cased) string is the
    -- identifier; an empty string falls through to the same result via
    -- the regex-failure branch of the source.
    { identifier := jsLower t, explanation := none, fullText := t }
  | some k =>
    if k ≥ 1 && cs.getLastD ' ' == ')' && cs.length ≥ k + 3 then
      { identifier := jsLower (jsTrim (String.mk (cs.take k)))
        explanation := some (jsLower (jsTrim (String.mk ((cs.drop (k + 1)).dropLast))))
        fullText := t }
    else
      { identifier := jsLower t, explanation := none, fullText := t }

/-- Strip quote characters (`'` and `"`), as in
`explanation.replace(/['"]/g, '')`. -/
def stripQuotes (s : String) : String :=
  String.mk (s.data.filter fun c => !(c == '\'' || c == '"'))

/-- `compareRootElements`: score two parsed root elements. Different
identifiers score 0; with both explanations present (quotes stripped,
trimmed) equal explanations score 80, one containing the other 70,
otherwise 50 (homograph); a missing explanation scores 60. -/
def compareRootElements (elem1 elem2 : ParsedRootElement) : Nat :=
  if elem1.identifier ≠ elem2.identifier then 0
  else
    match elem1.explanation, elem2.explanation with
    | some x1, some x2 =>
      -- JS truthiness: an empty explanation string behaves like a missing one.
      if x1 = "" || x2 = "" then 60
      else
        let exp1 := jsTrim (stripQuotes x1)
        let exp2 := jsTrim (stripQuotes x2)
        if exp1 = exp2 then 80
        else if jsIncludes exp1 exp2 || jsIncludes exp2 exp1 then 70
        else 50
    | _, _ => 60

/-- `extractRootElements`: split a compound root on `+` or `/`
(surrounding whitespace is absorbed by the per-element trim) and parse
each part. -/
def extractRootElements (root : String) : List ParsedRootElement :=
  ((splitOnChar (fun c => c == '+' || c == '/') root.data).map
    (fun p => parseRootElement (String.mk p)))

/-- Result record of `checkSharedRoots`. -/
structure RootMatch where
  score : Nat
  sharedRoot : String
deriving DecidableEq

/-- JS `a || b` for strings (empty string is falsy). -/
def jsOrString (a b : String) : String :=
  if a = "" then b else a

/-- One iteration of the double loop of `checkSharedRoots`, updating the
running best `(maxScore, bestMatch)` with the pair `(root1, root2)`. -/
def checkSharedRootsStep (acc : Nat × String) (pair : String × String) : Nat × String :=
  let (maxScore, bestMatch) := acc
  let (root1, root2) := pair
  let normalized1 := jsTrim (jsLower root1)
  let normalized2 := jsTrim (jsLower root2)
  if normalized1 = normalized2 then
    -- fast path: exact (case-insensitive) string match scores 80; the
    -- displayed root is the text before the first '(' of the original.
    if 80 > maxScore then
      (80, jsTrim (String.mk (((splitOnChar (· == '(') root1.data).headD []))))
    else (maxScore, bestMatch)
  else
    let elements1 := extractRootElements root1
    let elements2 := extractRootElements root2
    let matchedPairs := elements1.flatMap fun e1 =>
      elements2.filterMap fun e2 =>
        let elementScore := compareRootElements e1 e2
        if elementScore > 0 then some (elementScore, e1.identifier) else none
    if matchedPairs.isEmpty then (maxScore, bestMatch)
    else
      let totalElements := max elements1.length elements2.length
      let sumScores := (matchedPairs.map Prod.fst).foldl (· + ·) 0
      let score :=
        if 5 * matchedPairs.length ≥ 4 * totalElements then
          -- matchRatio >= 0.8: round the mean of the matched scores
          jsRound sumScores matchedPairs.length
        else if 2 * matchedPairs.length ≥ totalElements then
          -- 0.5 <= matchRatio < 0.8: round the mean scaled by 0.75
          jsRound (3 * sumScores) (4 * matchedPairs.length)
        else
          -- matchRatio < 0.5: clamp round(best * 0.6) into [30, 50]
          let maxElementScore := (matchedPairs.map Prod.fst).foldl max 0
          min 50 (max 30 (jsRound (3 * maxElementScore) 5))
      if score > maxScore then
        (score,
          jsOrString ((matchedPairs.map Prod.snd).headD "")
            (jsOrString ((elements1.headD ⟨"", none, ""⟩).identifier) root1))
      else (maxScore, bestMatch)

/-- `checkSharedRoots`: best root match across the two root lists, or
`none` when nothing matched. -/
def checkSharedRoots (roots1 roots2 : List String) : Option RootMatch :=
  let pairs := roots1.flatMap fun r1 => roots2.map fun r2 => (r1, r2)
  let final := pairs.foldl checkSharedRootsStep (0, "")
  if final.1 > 0 then some ⟨final.1, final.2⟩ else none

-- ============= PRONUNCIATION SIMILARITY =============

/-- Remove IPA formatting characters, as in `replace(/[\/\[\]]/g, '')`. -/
def stripIpaMarks (s : String) : String :=
  String.mk (s.data.filter fun c => !(c == '/' || c == '[' || c == ']'))

/-- `getPronunciationSimilarity`: clean both pronunciations (lower-case,
strip `/[]`, trim); exact match scores 80, distance ≤ 20% of the longer
length 60, ≤ 40% scores 40, otherwise 0. Missing or empty input gives 0. -/
def getPronunciationSimilarity (pronunciation1 pronunciation2 : Option String) : Nat :=
  match pronunciation1, pronunciation2 with
  | some s1, some s2 =>
    if s1 = "" || s2 = "" then 0
    else
      let p1 := jsTrim (stripIpaMarks (jsLower s1))
      let p2 := jsTrim (stripIpaMarks (jsLower s2))
      if p1 = p2 then 80
      else
        let distance := levenshteinDistance p1 p2
        let maxLength := max p1.length p2.length
        if maxLength = 0 then 0
        else if 5 * distance ≤ maxLength then 60
        else if 5 * distance ≤ 2 * maxLength then 40
        else 0
  | _, _ => 0

-- ============= ETYMOLOGY DESCRIPTION SIMILARITY =============

/-- The stop-word list of `getEtymologySimilarity`. -/
def stopWords : List String :=
  ["the", "a", "an", "from", "of", "in", "to", "and", "or", "via", "through"]

/-- Meaningful words of an etymology text: split on whitespace, keep words
longer than 3 characters that are not stop words. -/
def meaningfulWords (text : String) : List String :=
  ((splitOnChar Char.isWhitespace text.data).map String.mk).filter
    fun w => decide (w.length > 3) && !(stopWords.contains w)

/-- `getEtymologySimilarity`: 75/50/25/0 points for ≥3/2/1/0 shared
meaningful words; each word of the first list that occurs anywhere in the
second is counted. Missing or empty input gives 0. -/
def getEtymologySimilarity (etymology1 etymology2 : Option String) : Nat :=
  match etymology1, etymology2 with
  | some t1, some t2 =>
    if t1 = "" || t2 = "" then 0
    else
      let words1 := meaningfulWords (jsLower t1)
      let words2 := meaningfulWords (jsLower t2)
      if words1.isEmpty || words2.isEmpty then 0
      else
        let sharedWords := words1.filter fun w => words2.contains w
        if sharedWords.length ≥ 3 then 75
        else if sharedWords.length = 2 then 50
        else if sharedWords.length = 1 then 25
        else 0
  | _, _ => 0

-- ============= LITERAL MEANING SIMILARITY =============

/-- `getLiteralMeaningSimilarity`: exact (case-insensitive, trimmed) match
scores 60, one meaning containing the other 40, otherwise 0. -/
def getLiteralMeaningSimilarity (meaning1 meaning2 : Option String) : Nat :=
  match meaning1, meaning2 with
  | some s1, some s2 =>
    if s1 = "" || s2 = "" then 0
    else
      let m1 := jsTrim (jsLower s1)
      let m2 := jsTrim (jsLower s2)
      if m1 = m2 then 60
      else if jsIncludes m1 m2 || jsIncludes m2 m1 then 40
      else 0
  | _, _ => 0

-- ============= HIERARCHICAL CATEGORY MATCHING =============

/-- `getCategoryHierarchy`: split the path on `" > "`, trim each segment,
and return the cumulative ancestor paths. -/
def getCategoryHierarchy (category : String) : List String :=
  let parts := (splitArrow category.data).map trimChars
  (List.range parts.length).map fun i => String.mk (joinArrow (parts.take (i + 1)))

/-- The `commonDepth` loop: number of leading positions at which the two
hierarchy arrays agree (stop at the first mismatch). -/
def commonPrefixLen : List String → List String → Nat
  | a :: as, b :: bs => if a = b then commonPrefixLen as bs + 1 else 0
  | _, _ => 0

/-- Score one category pair inside `getHierarchicalCategorySimilarity`:
70 for identical strings, 40/30 when the common depth reaches the shorter
hierarchy (equal or different lengths), 10 when it falls one short of it,
otherwise 0. -/
def categoryPairScore (cat1 cat2 : String) : Nat :=
  let h1 := getCategoryHierarchy cat1
  let h2 := getCategoryHierarchy cat2
  let commonDepth := commonPrefixLen h1 h2
  if commonDepth = 0 then 0
  else if cat1 = cat2 then 70
  else if commonDepth = min h1.length h2.length then
    if h1.length = h2.length then 40 else 30
  else if commonDepth = min h1.length h2.length - 1 then 10
  else 0

/-- `getHierarchicalCategorySimilarity`: the maximum pair score over all
category pairs (0 when either list is empty). -/
def getHierarchicalCategorySimilarity (meanings1 meanings2 : List String) : Nat :=
  if meanings1.isEmpty || meanings2.isEmpty then 0
  else
    (meanings1.flatMap fun cat1 => meanings2.map fun cat2 =>
      categoryPairScore cat1 cat2).foldl max 0

/-- Score one origin pair inside `getHierarchicalOriginSimilarity`, with
the origin tier scores 45/25/20/8. -/
def originPairScore (o1 o2 : String) : Nat :=
  let h1 := getCategoryHierarchy o1
  let h2 := getCategoryHierarchy o2
  let commonDepth := commonPrefixLen h1 h2
  if commonDepth = 0 then 0
  else if o1 = o2 then 45
  else if commonDepth = min h1.length h2.length then
    if h1.length = h2.length then 25 else 20
  else if commonDepth = min h1.length h2.length - 1 then 8
  else 0

/-- `getHierarchicalOriginSimilarity`: the maximum origin pair score over
all pairs (0 when either list is missing or empty). -/
def getHierarchicalOriginSimilarity (origin1 origin2 : Option (List String)) : Nat :=
  match origin1, origin2 with
  | some l1, some l2 =>
    if l1.isEmpty || l2.isEmpty then 0
    else (l1.flatMap fun o1 => l2.map fun o2 => originPairScore o1 o2).foldl max 0
  | _, _ => 0

-- ============= DATA MODEL =============

/-- `nameType` of a catalog entry. -/
inductive NameType where
  | firstName | surname | either
deriving DecidableEq

/-- `gender` of a catalog entry or related form. -/
inductive Gender where
  | masculine | feminine | neutral | any
deriving DecidableEq

/-- The closed set of declared-relation kinds. -/
inductive RelationType where
  | alternateSpelling | diminutive | masculineForm | feminineForm
  | neutralForm | otherLanguage | fullForm
deriving DecidableEq

/-- Availability status of an entry. -/
inductive NameStatus where
  | available | blocked | used
deriving DecidableEq

/-- One explicitly declared related form of a name. -/
structure RelatedName where
  type : RelationType
  name : String
  pronunciation : Option String := none
  script : Option String := none
  etymology : Option String := none
  notes : Option String := none
  gender : Option Gender := none
  alternateOrigin : Option String := none
  feelings : Option (List String) := none
deriving DecidableEq

/-- The `Name` record of `useNameStorage`. -/
structure Name where
  id : String
  name : String
  nameType : NameType := NameType.firstName
  script : Option String := none
  meanings : List String := []
  meaning : Option String := none
  etymology : Option String := none
  pronunciation : Option String := none
  origin : Option (List String) := none
  gender : Option Gender := none
  feelings : List String := []
  notes : Option String := none
  roots : Option (List String) := none
  relatedNames : Option (List RelatedName) := none
  status : Option NameStatus := none
  blockedReason : Option String := none
  usedIn : Option String := none
  createdAt : String := ""
deriving DecidableEq

/-- Result record of `findSimilarNames` (`score` is set on every result the
source produces, but the field is declared optional). -/
structure SimilarName where
  name : Name
  reason : String
  score : Option Nat
deriving DecidableEq

-- ============= MAIN SIMILARITY FINDING FUNCTION =============

/-- The false-cognate flag: identical spelling (case-insensitive) without
any shared origin string. -/
def isFalseCognateFlag (currentName otherName : Name) : Bool :=
  (jsLower currentName.name == jsLower otherName.name) &&
  !(getOriginSimilarity currentName.origin otherName.origin)

/-- Signal 1: shared etymological roots (reason and score contribution). -/
def rootSignal (currentName otherName : Name) : List String × Nat :=
  match currentName.roots, otherName.roots with
  | some r1, some r2 =>
    match checkSharedRoots r1 r2 with
    | some m => (["shared root (" ++ m.sharedRoot ++ ")"], m.score)
    | none => ([], 0)
  | _, _ => ([], 0)

/-- Signal 2: pronunciation similarity. -/
def pronSignal (currentName otherName : Name) : List String × Nat :=
  let s := getPronunciationSimilarity currentName.pronunciation otherName.pronunciation
  if s > 0 then (["similar pronunciation"], s) else ([], 0)

/-- Signal 3: etymology description similarity. -/
def etymologySignal (currentName otherName : Name) : List String × Nat :=
  let s := getEtymologySimilarity currentName.etymology otherName.etymology
  if s > 0 then (["shared etymology"], s) else ([], 0)

/-- Signal 4: hierarchical category similarity. -/
def categorySignal (currentName otherName : Name) : List String × Nat :=
  let s := getHierarchicalCategorySimilarity currentName.meanings otherName.meanings
  if s > 0 then (["similar category"], s) else ([], 0)

/-- Signal 5: literal meaning similarity. -/
def meaningSignal (currentName otherName : Name) : List String × Nat :=
  let s := getLiteralMeaningSimilarity currentName.meaning otherName.meaning
  if s > 0 then (["similar literal meaning"], s) else ([], 0)

/-- Signal 6: spelling similarity. The 50-point bonus is granted when the
names are spelled similarly, unless the pair is a false cognate that has
accumulated no other points so far (`scoreSoFar` is the score after
signals 1-5, exactly as in the source's sequential accumulation). -/
def spellingSignal (currentName otherName : Name) (scoreSoFar : Nat) : List String × Nat :=
  if getSoundSimilarity currentName.name otherName.name then
    if !(isFalseCognateFlag currentName otherName) || scoreSoFar > 0 then
      (["similar spelling"], 50)
    else ([], 0)
  else ([], 0)

/-- Signal 7: hierarchical origin similarity. -/
def originSignal (currentName otherName : Name) : List String × Nat :=
  let s := getHierarchicalOriginSimilarity currentName.origin otherName.origin
  if s > 0 then (["related origin"], s) else ([], 0)

/-- Signal 8: similar feelings. -/
def feelingsSignal (currentName otherName : Name) : List String × Nat :=
  if getFeelingsSimilarity currentName.feelings otherName.feelings then
    (["similar feeling"], 8)
  else ([], 0)

/-- The per-candidate accumulation of `findSimilarNames`: the ordered
reason list and the total score, accumulated over the eight signals in
source order (the spelling signal observes the score accumulated by
signals 1-5). -/
def evalCandidate (currentName otherName : Name) : List String × Nat :=
  let p1 := rootSignal currentName otherName
  let p2 := pronSignal currentName otherName
  let p3 := etymologySignal currentName otherName
  let p4 := categorySignal currentName otherName
  let p5 := meaningSignal currentName otherName
  let score5 := p1.2 + p2.2 + p3.2 + p4.2 + p5.2
  let p6 := spellingSignal currentName otherName score5
  let p7 := originSignal currentName otherName
  let p8 := feelingsSignal currentName otherName
  (p1.1 ++ p2.1 ++ p3.1 ++ p4.1 ++ p5.1 ++ p6.1 ++ p7.1 ++ p8.1,
   score5 + p6.2 + p7.2 + p8.2)

/-- The body of the corpus loop of `findSimilarNames` for one candidate:
`none` when the candidate is skipped (same id, or either name appears in
the other's declared relations, or the accumulated result is below the
threshold or reasonless); otherwise the `SimilarName` that is pushed. -/
def considerCandidate (currentName : Name) (threshold : Nat) (otherName : Name) :
    Option SimilarName :=
  if otherName.id = currentName.id then none
  else if ((currentName.relatedNames.getD []).map RelatedName.name).contains otherName.name ||
      ((otherName.relatedNames.getD []).map RelatedName.name).contains currentName.name then none
  else if 0 < (evalCandidate currentName otherName).1.length ∧
      threshold ≤ (evalCandidate currentName otherName).2 then
    some ⟨otherName, joinSep ", " (evalCandidate currentName otherName).1,
      some (evalCandidate currentName otherName).2⟩
  else none

/-- Comparator of the final sort: score descending, ties broken by the
case-insensitive name (the source's locale-aware comparison is modelled
as lexicographic order on the lower-cased names; no claim depends on the
tie order). -/
def simLE (a b : SimilarName) : Bool :=
  let sa := a.score.getD 0
  let sb := b.score.getD 0
  if sa ≠ sb then decide (sb ≤ sa)
  else decide (jsLower a.name.name ≤ jsLower b.name.name)

/-- Insert into a list sorted by `le` (helper of the sorting model). -/
def insertSorted (le : α → α → Bool) (a : α) : List α → List α
  | [] => [a]
  | b :: bs => if le a b then a :: b :: bs else b :: insertSorted le a bs

/-- The final sort of `findSimilarNames` modelled as an insertion sort by
the comparator (JS `Array.prototype.sort` is some comparison sort; the
claims below only use that sorting preserves the set of elements). -/
def sortByLE (le : α → α → Bool) : List α → List α
  | [] => []
  | a :: as => insertSorted le a (sortByLE le as)

/-- `findSimilarNames`: scan the corpus, score every candidate, keep those
with at least one reason and a score at or above the threshold (default
60), and sort by score descending then name ascending. -/
def findSimilarNames (name : Name) (allNames : List Name) (threshold : Nat := 60) :
    List SimilarName :=
  sortByLE simLE (allNames.filterMap (considerCandidate name threshold))

-- ============= PHONETIC UTILITIES =============

/-- `normalizePronunciation`: lower-case and remove all whitespace. -/
def normalizePronunciation (text : String) : String :=
  String.mk ((jsLower text).data.filter fun c => !c.isWhitespace)

/-- The vowels recognised by the rhyme detector. -/
def isRhymeVowel (c : Char) : Bool :=
  c.toLower == 'a' || c.toLower == 'e' || c.toLower == 'i' ||
  c.toLower == 'o' || c.toLower == 'u' || c.toLower == 'y'

/-- The final syllable: the text after the last hyphen (the whole string
when there is no hyphen). -/
def getLastSyllable (text : String) : String :=
  ((splitOnChar (· == '-') text.data).map String.mk).getLastD ""

/-- Split a syllable into onset (before the first vowel) and rhyme part
(first vowel through the end); with no vowel the onset is empty and the
rhyme part is the whole syllable. -/
def getRhymePart (syllable : String) : String × String :=
  match syllable.data.findIdx? isRhymeVowel with
  | none => ("", syllable)
  | some i => (String.mk (syllable.data.take i), String.mk (syllable.data.drop i))

/-- `pronunciationsRhyme` from `phoneticUtils`: both pronunciations
required; identical normalised strings never rhyme; final syllables must
have at least 2 characters; then the rhyme parts must match, the onsets
must differ, and the rhyme part must have at least 2 characters. -/
def pronunciationsRhyme (pronunciation1 pronunciation2 : Option String) : Bool :=
  match pronunciation1, pronunciation2 with
  | some s1, some s2 =>
    if s1 = "" || s2 = "" then false
    else
      let normalized1 := normalizePronunciation s1
      let normalized2 := normalizePronunciation s2
      if normalized1 = normalized2 then false
      else
        let lastSyllable1 := getLastSyllable normalized1
        let lastSyllable2 := getLastSyllable normalized2
        if lastSyllable1.length < 2 || lastSyllable2.length < 2 then false
        else
          let parts1 := getRhymePart lastSyllable1
          let parts2 := getRhymePart lastSyllable2
          let rhymePartsMatch := parts1.2 == parts2.2
          let onsetsAreDifferent := parts1.1 != parts2.1
          let rhymeIsSubstantial := decide (parts1.2.length ≥ 2)
          rhymePartsMatch && onsetsAreDifferent && rhymeIsSubstantial
  | _, _ => false

-- ============= SPEC MODEL OF THE RHYME CONTRACT (for claim C9) =============

/-- Onset of a final syllable as the specification words it: the
characters before the first vowel; with no vowel at all the onset is
empty. -/
def specOnset (syllable : String) : String :=
  if syllable.data.any isRhymeVowel then
    String.mk (syllable.data.takeWhile fun c => !isRhymeVowel c)
  else ""

/-- Rhyme part as the specification words it: the first vowel through the
end of the final syllable, or the whole syllable if it is vowel-less. -/
def specRhyme (syllable : String) : String :=
  if syllable.data.any isRhymeVowel then
    String.mk (syllable.data.dropWhile fun c => !isRhymeVowel c)
  else syllable

/-- The rhyme contract exactly as claim C9 states it: false when either
input is absent (or JS-falsy empty), when the normalised strings are
identical, or when either final syllable is shorter than 2 characters;
otherwise true iff the rhyme parts are equal, the onsets differ, and the
rhyme part has length at least 2. -/
def rhymeContract (p1 p2 : Option String) : Bool :=
  match p1, p2 with
  | some s1, some s2 =>
    if s1 = "" || s2 = "" then false
    else
      let n1 := normalizePronunciation s1
      let n2 := normalizePronunciation s2
      let f1 := getLastSyllable n1
      let f2 := getLastSyllable n2
      decide (n1 ≠ n2) && decide (2 ≤ f1.length) && decide (2 ≤ f2.length) &&
      (specRhyme f1 == specRhyme f2) && (specOnset f1 != specOnset f2) &&
      decide (2 ≤ (specRhyme f1).length)
  | _, _ => false

-- ============= LEVENSHTEIN: MATRIX LEMMAS =============

theorem levMatrixCell_zero_col (s1 s2 : List Char) (i : Nat) :
    levMatrixCell s1 s2 i 0 = i := by
  cases i <;> rfl

theorem levMatrixCell_succ (s1 s2 : List Char) (i j : Nat) :
    levMatrixCell s1 s2 (i + 1) (j + 1) =
      if s2.getD i 'a' = s1.getD j 'a' then levMatrixCell s1 s2 i j
      else
        min (levMatrixCell s1 s2 i j + 1)
          (min (levMatrixCell s1 s2 (i + 1) j + 1)
            (levMatrixCell s1 s2 i (j + 1) + 1)) := rfl

/-- The Levenshtein matrix is symmetric in its two strings (with the row
and column indices exchanged): exchanging the strings exchanges insertion
and deletion, and `min` is commutative. -/
theorem levMatrixCell_symm_aux (s1 s2 : List Char) :
    ∀ (n i j : Nat), i + j ≤ n →
      levMatrixCell s1 s2 i j = levMatrixCell s2 s1 j i := by
  intro n
  induction n with
  | zero =>
    intro i j h
    have hi : i = 0 := by omega
    have hj : j = 0 := by omega
    subst hi; subst hj; rfl
  | succ n ih =>
    intro i j h
    match i, j with
    | 0, 0 => rfl
    | 0, j + 1 => rw [levMatrixCell_zero_col]; rfl
    | i + 1, 0 => rw [levMatrixCell_zero_col]; rfl
    | i + 1, j + 1 =>
      rw [levMatrixCell_succ, levMatrixCell_succ,
        ih i j (by omega), ih (i + 1) j (by omega), ih i (j + 1) (by omega)]
      by_cases hc : s2.getD i 'a' = s1.getD j 'a'
      · rw [if_pos hc, if_pos hc.symm]
      · rw [if_neg hc, if_neg (fun hh => hc hh.symm)]
        omega

theorem levMatrixCell_symm (s1 s2 : List Char) (i j : Nat) :
    levMatrixCell s1 s2 i j = levMatrixCell s2 s1 j i :=
  levMatrixCell_symm_aux s1 s2 (i + j) i j (Nat.le_refl _)

/-- The diagonal of the matrix for a string against itself is zero. -/
theorem levMatrixCell_diag (s : List Char) : ∀ i, levMatrixCell s s i i = 0 := by
  intro i
  induction i with
  | zero => rfl
  | succ i ih => rw [levMatrixCell_succ, if_pos rfl]; exact ih

-- ============= LEVENSHTEIN: THE ROW FOLD TABULATES THE MATRIX =============

theorem levRowNextAux_spec (s1 s2 : List Char) (i : Nat) :
    ∀ (t : List Char) (j : Nat), s1.drop j = t →
      levRowNextAux (s2.getD i 'a')
          (t.zip ((List.range' (j + 1) (s1.length - j)).map (levMatrixCell s1 s2 i)))
          (levMatrixCell s1 s2 i j) (levMatrixCell s1 s2 (i + 1) j)
        = (List.range' (j + 1) (s1.length - j)).map (levMatrixCell s1 s2 (i + 1)) := by
  intro t
  induction t with
  | nil =>
    intro j hj
    have hlen : s1.length ≤ j := List.drop_eq_nil_iff.mp hj
    have h0 : s1.length - j = 0 := by omega
    rw [h0]
    rfl
  | cons a t' ih =>
    intro j hj
    have hjlt : j < s1.length := by
      by_contra hge
      have : s1.drop j = [] := List.drop_eq_nil_iff.mpr (by omega)
      rw [this] at hj
      exact List.noConfusion hj
    have hget : s1.getD j 'a' = a := by
      have h1 : (s1.drop j)[0]? = some a := by rw [hj]; exact List.getElem?_cons_zero
      rw [List.getElem?_drop] at h1
      have h2 : s1[j]? = some a := by simpa using h1
      rw [List.getD_eq_getElem?_getD, h2]
      rfl
    have hdrop : s1.drop (j + 1) = t' := by
      have := List.tail_drop s1 j
      rw [hj] at this
      exact this.symm
    have hlen : s1.length - j = (s1.length - (j + 1)) + 1 := by omega
    rw [hlen, List.range'_succ]
    simp only [List.map_cons, List.zip_cons_cons, levRowNextAux]
    have hcell : (if s2.getD i 'a' = a then levMatrixCell s1 s2 i j
        else
          min (levMatrixCell s1 s2 i j + 1)
            (min (levMatrixCell s1 s2 (i + 1) j + 1)
              (levMatrixCell s1 s2 i (j + 1) + 1)))
        = levMatrixCell s1 s2 (i + 1) (j + 1) := by
      rw [levMatrixCell_succ, hget]
    rw [hcell]
    exact congrArg (levMatrixCell s1 s2 (i + 1) (j + 1) :: ·) (ih (j + 1) hdrop)

theorem levFold_spec (s1 s2 : List Char) :
    ∀ (suf : List Char) (k : Nat), k ≤ s2.length → s2.drop k = suf →
      suf.foldl (levRowNext s1) ((List.range (s1.length + 1)).map (levMatrixCell s1 s2 k))
        = (List.range (s1.length + 1)).map (levMatrixCell s1 s2 s2.length) := by
  intro suf
  induction suf with
  | nil =>
    intro k hk hdrop
    have : s2.length ≤ k := List.drop_eq_nil_iff.mp hdrop
    have hkk : k = s2.length := by omega
    rw [hkk]
    rfl
  | cons c suf' ih =>
    intro k hk hdrop
    have hklt : k < s2.length := by
      by_contra hge
      have : s2.drop k = [] := List.drop_eq_nil_iff.mpr (by omega)
      rw [this] at hdrop
      exact List.noConfusion hdrop
    have hget : s2.getD k 'a' = c := by
      have h1 : (s2.drop k)[0]? = some c := by rw [hdrop]; exact List.getElem?_cons_zero
      rw [List.getElem?_drop] at h1
      have h2 : s2[k]? = some c := by simpa using h1
      rw [List.getD_eq_getElem?_getD, h2]
      rfl
    have hdrop' : s2.drop (k + 1) = suf' := by
      have := List.tail_drop s2 k
      rw [hdrop] at this
      exact this.symm
    rw [List.foldl_cons]
    have hrange : List.range (s1.length + 1) = 0 :: List.range' 1 s1.length := by
      rw [List.range_eq_range', List.range'_succ]
    have haux := levRowNextAux_spec s1 s2 k s1 0 rfl
    rw [levMatrixCell_zero_col, levMatrixCell_zero_col] at haux
    simp only [Nat.zero_add, Nat.sub_zero] at haux
    have hstep : levRowNext s1 ((List.range (s1.length + 1)).map (levMatrixCell s1 s2 k)) c
        = (List.range (s1.length + 1)).map (levMatrixCell s1 s2 (k + 1)) := by
      rw [hrange]
      simp only [List.map_cons]
      rw [levMatrixCell_zero_col s1 s2 k, levMatrixCell_zero_col s1 s2 (k + 1)]
      show (k + 1) :: levRowNextAux c
            ((s1.zip ((List.range' 1 s1.length).map (levMatrixCell s1 s2 k)))) k (k + 1)
          = (k + 1) :: (List.range' 1 s1.length).map (levMatrixCell s1 s2 (k + 1))
      rw [← hget]
      exact congrArg ((k + 1) :: ·) haux
    rw [hstep]
    exact ih (k + 1) (by omega) hdrop'

/-- The row-by-row computation of `levenshteinDistance` returns exactly
the bottom-right cell of the matrix recurrence. -/
theorem levenshteinDistance_eq_cell (a b : String) :
    levenshteinDistance a b = levMatrixCell a.data b.data b.data.length a.data.length := by
  show (b.data.foldl (levRowNext a.data) (List.range (a.data.length + 1))).getLastD 0
      = levMatrixCell a.data b.data b.data.length a.data.length
  have h0 : List.range (a.data.length + 1)
      = (List.range (a.data.length + 1)).map (levMatrixCell a.data b.data 0) := by
    have hid : levMatrixCell a.data b.data 0 = id := rfl
    rw [hid, List.map_id]
  rw [h0, levFold_spec a.data b.data b.data 0 (Nat.zero_le _) rfl]
  rw [List.range_succ, List.map_append]
  simp only [List.map_cons, List.map_nil]
  rw [List.getLastD_concat]

/-- `distance(s, s) = 0`. -/
theorem levenshteinDistance_self (s : String) : levenshteinDistance s s = 0 := by
  rw [levenshteinDistance_eq_cell]
  exact levMatrixCell_diag s.data s.data.length

/-- `distance(a, b) = distance(b, a)`. -/
theorem levenshteinDistance_symm (a b : String) :
    levenshteinDistance a b = levenshteinDistance b a := by
  rw [levenshteinDistance_eq_cell, levenshteinDistance_eq_cell]
  exact levMatrixCell_symm a.data b.data b.data.length a.data.length

-- ============= SORTING AND FILTERING LEMMAS =============

theorem mem_insertSorted {α : Type _} (le : α → α → Bool) (a x : α) (l : List α) :
    x ∈ insertSorted le a l ↔ x = a ∨ x ∈ l := by
  induction l with
  | nil => simp [insertSorted]
  | cons b bs ih =>
    simp only [insertSorted]
    by_cases h : le a b
    · simp [h]
    · simp only [h, Bool.false_eq_true, if_false, List.mem_cons, ih]
      tauto

theorem mem_sortByLE {α : Type _} (le : α → α → Bool) (x : α) (l : List α) :
    x ∈ sortByLE le l ↔ x ∈ l := by
  induction l with
  | nil => simp [sortByLE]
  | cons a as ih =>
    simp only [sortByLE, mem_insertSorted, ih, List.mem_cons]

/-- What a produced `SimilarName` certifies about the candidate. -/
theorem considerCandidate_some {cn : Name} {t : Nat} {o : Name} {r : SimilarName}
    (h : considerCandidate cn t o = some r) :
    r.name = o ∧ ¬ o.id = cn.id ∧
    (((cn.relatedNames.getD []).map RelatedName.name).contains o.name ||
      ((o.relatedNames.getD []).map RelatedName.name).contains cn.name) = false ∧
    (evalCandidate cn o).1 ≠ [] ∧ t ≤ (evalCandidate cn o).2 := by
  unfold considerCandidate at h
  by_cases h1 : o.id = cn.id
  · rw [if_pos h1] at h
    exact Option.noConfusion h
  · rw [if_neg h1] at h
    by_cases h2 : (((cn.relatedNames.getD []).map RelatedName.name).contains o.name ||
        ((o.relatedNames.getD []).map RelatedName.name).contains cn.name) = true
    · rw [if_pos h2] at h
      exact Option.noConfusion h
    · rw [if_neg h2] at h
      by_cases h3 : 0 < (evalCandidate cn o).1.length ∧ t ≤ (evalCandidate cn o).2
      · rw [if_pos h3] at h
        refine ⟨?_, h1, Bool.eq_false_iff.mpr h2, List.length_pos.mp h3.1, h3.2⟩
        rw [← Option.some.inj h]
      · rw [if_neg h3] at h
        exact Option.noConfusion h

/-- A candidate that passes the exclusion checks and the threshold test
is pushed, with its reasons joined by `", "` and its score attached. -/
theorem considerCandidate_eq_some_of {cn : Name} {t : Nat} {o : Name}
    (hid : ¬ o.id = cn.id)
    (hrel : (((cn.relatedNames.getD []).map RelatedName.name).contains o.name ||
      ((o.relatedNames.getD []).map RelatedName.name).contains cn.name) = false)
    (hkeep : (evalCandidate cn o).1 ≠ [] ∧ t ≤ (evalCandidate cn o).2) :
    considerCandidate cn t o =
      some ⟨o, joinSep ", " (evalCandidate cn o).1, some (evalCandidate cn o).2⟩ := by
  unfold considerCandidate
  rw [if_neg hid, if_neg (Bool.eq_false_iff.mp hrel),
    if_pos ⟨List.length_pos.mpr hkeep.1, hkeep.2⟩]

/-- A candidate that matches the target's id, or is declared as a related
name in either direction, is skipped. -/
theorem considerCandidate_none_of_excluded {cn : Name} {t : Nat} {o : Name}
    (h : o.id = cn.id ∨ o.name ∈ (cn.relatedNames.getD []).map RelatedName.name ∨
      cn.name ∈ (o.relatedNames.getD []).map RelatedName.name) :
    considerCandidate cn t o = none := by
  unfold considerCandidate
  rcases h with h | h | h
  · rw [if_pos h]
  · by_cases hid : o.id = cn.id
    · rw [if_pos hid]
    · have hc : (((cn.relatedNames.getD []).map RelatedName.name).contains o.name) = true :=
        List.elem_iff.mpr h
      rw [if_neg hid, if_pos (by rw [hc, Bool.true_or])]
  · by_cases hid : o.id = cn.id
    · rw [if_pos hid]
    · have hc : (((o.relatedNames.getD []).map RelatedName.name).contains cn.name) = true :=
        List.elem_iff.mpr h
      rw [if_neg hid, if_pos (by rw [hc, Bool.or_true])]

-- ============= SPELLING-SIGNAL LEMMAS =============

/-- The shared-root reason tag can never read "similar spelling". -/
theorem sharedRootTag_ne (s : String) : "shared root (" ++ s ++ ")" ≠ "similar spelling" := by
  intro h
  have hL : ("shared root (" ++ s ++ ")").data[1]? = some 'h' := by
    rw [String.data_append, String.data_append]
    rfl
  rw [h] at hL
  exact absurd hL (by decide)

theorem spelling_not_mem_rootSignal (cn o : Name) :
    "similar spelling" ∉ (rootSignal cn o).1 := by
  unfold rootSignal
  rcases cn.roots with _ | r1
  · simp
  · rcases o.roots with _ | r2
    · simp
    · cases hm : checkSharedRoots r1 r2 with
      | none => simp [hm]
      | some m =>
        simp only [hm, List.mem_singleton]
        exact fun hh => sharedRootTag_ne m.sharedRoot hh.symm

theorem spelling_not_mem_pronSignal (cn o : Name) :
    "similar spelling" ∉ (pronSignal cn o).1 := by
  simp only [pronSignal]
  split
  · intro hh
    exact absurd (List.mem_singleton.mp hh) (by decide)
  · simp

theorem spelling_not_mem_etymologySignal (cn o : Name) :
    "similar spelling" ∉ (etymologySignal cn o).1 := by
  simp only [etymologySignal]
  split
  · intro hh
    exact absurd (List.mem_singleton.mp hh) (by decide)
  · simp

theorem spelling_not_mem_categorySignal (cn o : Name) :
    "similar spelling" ∉ (categorySignal cn o).1 := by
  simp only [categorySignal]
  split
  · intro hh
    exact absurd (List.mem_singleton.mp hh) (by decide)
  · simp

theorem spelling_not_mem_meaningSignal (cn o : Name) :
    "similar spelling" ∉ (meaningSignal cn o).1 := by
  simp only [meaningSignal]
  split
  · intro hh
    exact absurd (List.mem_singleton.mp hh) (by decide)
  · simp

theorem spelling_not_mem_originSignal (cn o : Name) :
    "similar spelling" ∉ (originSignal cn o).1 := by
  simp only [originSignal]
  split
  · intro hh
    exact absurd (List.mem_singleton.mp hh) (by decide)
  · simp

theorem spelling_not_mem_feelingsSignal (cn o : Name) :
    "similar spelling" ∉ (feelingsSignal cn o).1 := by
  simp only [feelingsSignal]
  split
  · intro hh
    exact absurd (List.mem_singleton.mp hh) (by decide)
  · simp

/-- When the spelling comparator fires, the lower-cased names differ
(because a successful comparison requires a positive edit distance, and
the distance of a string to itself is zero). -/
theorem getSoundSimilarity_ne (name1 name2 : String)
    (h : getSoundSimilarity name1 name2 = true) : jsLower name1 ≠ jsLower name2 := by
  intro heq
  simp only [getSoundSimilarity] at h
  rw [heq] at h
  split at h
  · exact Bool.noConfusion h
  · rw [levenshteinDistance_self] at h
    simp at h

/-- Hence a pair on which the spelling comparator fires is never flagged
as a false cognate. -/
theorem falseCognate_false_of_sound (cn o : Name)
    (h : getSoundSimilarity cn.name o.name = true) : isFalseCognateFlag cn o = false := by
  unfold isFalseCognateFlag
  have hne := getSoundSimilarity_ne cn.name o.name h
  have hbeq : (jsLower cn.name == jsLower o.name) = false := by
    rw [beq_eq_false_iff_ne]
    exact hne
  rw [hbeq, Bool.false_and]

/-- The "similar spelling" reason is recorded exactly when the spelling
comparator fires, whatever the accumulated score: the false-cognate guard
can only block the bonus for identically spelled names, which the
comparator already rejects. -/
theorem spelling_mem_iff (cn o : Name) :
    "similar spelling" ∈ (evalCandidate cn o).1 ↔
      getSoundSimilarity cn.name o.name = true := by
  unfold evalCandidate
  simp only [List.mem_append]
  constructor
  · intro h
    rcases h with ((((((h | h) | h) | h) | h) | h) | h) | h
    · exact absurd h (spelling_not_mem_rootSignal cn o)
    · exact absurd h (spelling_not_mem_pronSignal cn o)
    · exact absurd h (spelling_not_mem_etymologySignal cn o)
    · exact absurd h (spelling_not_mem_categorySignal cn o)
    · exact absurd h (spelling_not_mem_meaningSignal cn o)
    · by_cases hs : getSoundSimilarity cn.name o.name = true
      · exact hs
      · unfold spellingSignal at h
        rw [if_neg hs] at h
        simp at h
    · exact absurd h (spelling_not_mem_originSignal cn o)
    · exact absurd h (spelling_not_mem_feelingsSignal cn o)
  · intro h
    have hfc := falseCognate_false_of_sound cn o h
    have hsig : (spellingSignal cn o
        ((rootSignal cn o).2 + (pronSignal cn o).2 + (etymologySignal cn o).2 +
          (categorySignal cn o).2 + (meaningSignal cn o).2)).1 = ["similar spelling"] := by
      unfold spellingSignal
      rw [if_pos h, if_pos (by rw [hfc]; rfl)]
    refine Or.inl (Or.inl (Or.inr ?_))
    rw [hsig]
    exact List.mem_singleton.mpr rfl

-- ============= RHYME: CODE VS CONTRACT =============

theorem rhymeSplit_aux (l : List Char) :
    (l.findIdx? isRhymeVowel = none → l.any isRhymeVowel = false) ∧
    (∀ i, l.findIdx? isRhymeVowel = some i →
      l.take i = l.takeWhile (fun c => !isRhymeVowel c) ∧
      l.drop i = l.dropWhile (fun c => !isRhymeVowel c) ∧
      l.any isRhymeVowel = true) := by
  induction l with
  | nil => exact ⟨fun _ => rfl, fun i h => Option.noConfusion h⟩
  | cons c cs ih =>
    by_cases hc : isRhymeVowel c
    · constructor
      · intro h
        rw [List.findIdx?_cons, if_pos hc] at h
        exact Option.noConfusion h
      · intro i h
        rw [List.findIdx?_cons, if_pos hc] at h
        have hi : i = 0 := (Option.some.inj h).symm
        subst hi
        refine ⟨?_, ?_, ?_⟩
        · simp [List.takeWhile_cons, hc]
        · simp [List.dropWhile_cons, hc]
        · simp [List.any_cons, hc]
    · constructor
      · intro h
        rw [List.findIdx?_cons, if_neg hc, List.findIdx?_succ] at h
        have h2 : cs.findIdx? isRhymeVowel = none := by
          cases hcs : cs.findIdx? isRhymeVowel
          · rfl
          · rw [hcs] at h
            exact Option.noConfusion h
        have := ih.1 h2
        simp [List.any_cons, hc, this]
      · intro i h
        rw [List.findIdx?_cons, if_neg hc, List.findIdx?_succ] at h
        cases hcs : cs.findIdx? isRhymeVowel with
        | none =>
          rw [hcs] at h
          exact Option.noConfusion h
        | some j =>
          rw [hcs] at h
          have hij : i = j + 1 := (Option.some.inj h).symm
          subst hij
          obtain ⟨ht, hd, ha⟩ := ih.2 j hcs
          refine ⟨?_, ?_, ?_⟩
          · simp [List.take_succ_cons, List.takeWhile_cons, hc, ht]
          · simp [List.drop_succ_cons, List.dropWhile_cons, hc, hd]
          · simp [List.any_cons, ha]

/-- The code's onset/rhyme split agrees with the specification's
description of it. -/
theorem getRhymePart_eq (s : String) : getRhymePart s = (specOnset s, specRhyme s) := by
  unfold getRhymePart specOnset specRhyme
  cases hf : s.data.findIdx? isRhymeVowel with
  | none =>
    have hany := (rhymeSplit_aux s.data).1 hf
    simp [hany]
  | some i =>
    obtain ⟨ht, hd, ha⟩ := (rhymeSplit_aux s.data).2 i hf
    simp [ha, ht, hd]

/-- The rhyme detector implements the contract stated in the
specification, clause by clause. -/
theorem pronunciationsRhyme_eq_contract (p1 p2 : Option String) :
    pronunciationsRhyme p1 p2 = rhymeContract p1 p2 := by
  rcases p1 with _ | s1
  · rfl
  rcases p2 with _ | s2
  · rfl
  unfold pronunciationsRhyme rhymeContract
  dsimp only
  split_ifs with h0 hn hl
  · rfl
  · simp [hn]
  · simp only [Bool.or_eq_true, decide_eq_true_eq] at hl
    rcases hl with h | h
    · have h2 : ¬ (2 ≤ (getLastSyllable (normalizePronunciation s1)).length) := by omega
      simp [h2]
    · have h2 : ¬ (2 ≤ (getLastSyllable (normalizePronunciation s2)).length) := by omega
      simp [h2]
  · rw [getRhymePart_eq, getRhymePart_eq]
    have hn' : decide (normalizePronunciation s1 ≠ normalizePronunciation s2) = true := by
      simpa using hn
    simp only [Bool.or_eq_true, not_or, decide_eq_true_eq, Nat.not_lt] at hl
    simp [hn', hl.1, hl.2, Bool.and_assoc]

-- ============= CONCRETE CATALOG ENTRIES FOR THE SCENARIOS =============

/-- Target of the end-to-end shared-root scenario. -/
def philipN : Name :=
  { id := "philip-1", name := "Philip", roots := some ["Greek: philos (love)"] }

/-- Candidate of the end-to-end shared-root scenario. -/
def philomenaN : Name :=
  { id := "philomena-1", name := "Philomena", roots := some ["Greek: philos (love)"] }

/-- The Korean-origin "Kim" of the false-cognate scenario. -/
def kimKoreanN : Name :=
  { id := "kim-1", name := "Kim", origin := some ["Korean"] }

/-- The Germanic-origin "Kim" of the false-cognate scenario. -/
def kimGermanicN : Name :=
  { id := "kim-2", name := "Kim", origin := some ["Germanic"] }

/-- A target whose only shared signal with `moonCandN` is the literal
meaning "moon" (60 points, exactly the default threshold). -/
def moonTargetN : Name :=
  { id := "moon-t", name := "Xq", meaning := some "moon" }

/-- Candidate scoring exactly 60 against `moonTargetN`. -/
def moonCandN : Name :=
  { id := "moon-c", name := "Zw", meaning := some "moon" }

/-- A target that declares "Annie" as a diminutive. -/
def anneN : Name :=
  { id := "anne-1", name := "Anne", meaning := some "grace",
    relatedNames := some [{ type := RelationType.diminutive, name := "Annie" }] }

/-- A candidate that would score far above the threshold against `anneN`
(similar spelling and identical literal meaning) but is declared related. -/
def annieN : Name :=
  { id := "annie-1", name := "Annie", meaning := some "grace" }

/-- "Sarah", used to exercise the spelling signal. -/
def sarahN : Name := { id := "sarah-1", name := "Sarah" }

/-- "Sara", a spelling variant of "Sarah". -/
def saraN : Name := { id := "sara-1", name := "Sara" }

-- ============= CLAIM THEOREMS =============

/-- Claim C1 (code bug evaluation): on the sibling paths "A > B > X" and
"A > B > Y" the code's hierarchical matcher returns the cousin tier
(10 for categories, 8 for origins) instead of the documented sibling tier
(40 and 25): the common depth of two siblings of depth m is m − 1, which
the implementation compares against the branch conditions for one tier
too far. -/
theorem c1_sibling_paths_scored_as_cousins :
    getHierarchicalCategorySimilarity ["A > B > X"] ["A > B > Y"] = 10 ∧
    getHierarchicalOriginSimilarity (some ["A > B > X"]) (some ["A > B > Y"]) = 8 := by
  constructor
  · decide
  · decide

/-- Claim C2 (code bug evaluation): on the cousin paths "A > B > X" and
"A > C > Y" (shared grandparent only) the code's hierarchical matcher
returns 0 for both tier tables instead of the documented cousin scores 10
and 8: the common depth of two cousins of depth m is m − 2, which matches
no branch of the implementation. -/
theorem c2_cousin_paths_scored_zero :
    getHierarchicalCategorySimilarity ["A > B > X"] ["A > C > Y"] = 0 ∧
    getHierarchicalOriginSimilarity (some ["A > B > X"]) (some ["A > C > Y"]) = 0 := by
  constructor
  · decide
  · decide

/-- Claim C3 (counterexample): no result of
`findSimilarNames philipN [philomenaN]` carries a reason containing the
lower-cased tag "shared root (greek: philos)": the fast path of
`checkSharedRoots` reports the shared root with its original casing. -/
theorem c3_shared_root_counterexample :
    (findSimilarNames philipN [philomenaN] 60).all
      (fun r => !(jsIncludes r.reason "shared root (greek: philos)")) = true := by
  decide

/-- Claim C3 (amended): `findSimilarNames philipN [philomenaN]` at the
default threshold 60 returns the candidate with total score 80 (≥ 80),
and its reason string contains the exact tag
"shared root (Greek: philos)" — the identifier keeps the original casing
of the stored root string. -/
theorem c3_shared_root_amended :
    findSimilarNames philipN [philomenaN] 60 =
      [⟨philomenaN, "shared root (Greek: philos)", some 80⟩] ∧
    (findSimilarNames philipN [philomenaN] 60).all
      (fun r => decide (80 ≤ r.score.getD 0) &&
        jsIncludes r.reason "shared root (Greek: philos)") = true := by
  constructor
  · decide
  · decide

/-- Claim C4: a corpus candidate that passes the id and declared-relation
exclusions appears in the output of `findSimilarNames` exactly when its
accumulated reason list is non-empty and its accumulated score reaches
the threshold; in particular a total of threshold − 1 is excluded and a
total of exactly threshold is included. -/
theorem c4_threshold_boundary (target B : Name) (corpus : List Name) (t : Nat)
    (hmem : B ∈ corpus) (hid : ¬ B.id = target.id)
    (hrel : (((target.relatedNames.getD []).map RelatedName.name).contains B.name ||
      ((B.relatedNames.getD []).map RelatedName.name).contains target.name) = false) :
    (B ∈ (findSimilarNames target corpus t).map SimilarName.name ↔
      ((evalCandidate target B).1 ≠ [] ∧ t ≤ (evalCandidate target B).2)) ∧
    ((evalCandidate target B).2 + 1 = t →
      B ∉ (findSimilarNames target corpus t).map SimilarName.name) ∧
    ((evalCandidate target B).2 = t → (evalCandidate target B).1 ≠ [] →
      B ∈ (findSimilarNames target corpus t).map SimilarName.name) := by
  have main : B ∈ (findSimilarNames target corpus t).map SimilarName.name ↔
      ((evalCandidate target B).1 ≠ [] ∧ t ≤ (evalCandidate target B).2) := by
    constructor
    · intro h
      rcases List.mem_map.mp h with ⟨r, hr, hrB⟩
      unfold findSimilarNames at hr
      have hr' := (mem_sortByLE simLE r _).mp hr
      rcases List.mem_filterMap.mp hr' with ⟨C, hC, hCsome⟩
      have hprops := considerCandidate_some hCsome
      have hCB : C = B := by rw [← hprops.1, hrB]
      rw [hCB] at hprops
      exact ⟨hprops.2.2.2.1, hprops.2.2.2.2⟩
    · intro hcond
      have hsome := @considerCandidate_eq_some_of target t B hid hrel hcond
      refine List.mem_map.mpr ⟨⟨B, joinSep ", " (evalCandidate target B).1,
        some (evalCandidate target B).2⟩, ?_, rfl⟩
      unfold findSimilarNames
      exact (mem_sortByLE simLE _ _).mpr (List.mem_filterMap.mpr ⟨B, hmem, hsome⟩)
  refine ⟨main, fun hthr hmem' => ?_, fun hsc hne => ?_⟩
  · have h2 := (main.mp hmem').2
    omega
  · exact main.mpr ⟨hne, by omega⟩

/-- Witness for C4: against `moonTargetN`, the candidate `moonCandN`
accumulates exactly 60 points with one reason, so at the default
threshold 60 the boundary case is included. -/
theorem c4_threshold_boundary_witness :
    moonCandN ∈ (findSimilarNames moonTargetN [moonCandN] 60).map SimilarName.name :=
  (c4_threshold_boundary moonTargetN moonCandN [moonCandN] 60 (by decide) (by decide)
    (by decide)).2.2 (by decide) (by decide)

/-- Claim C5: a candidate with the target's id, or whose name is declared
among the target's related names, or that declares the target's name among
its own related names, never appears in the output of `findSimilarNames`,
no matter how high its raw similarity score would be. -/
theorem c5_related_exclusion (target B : Name) (corpus : List Name) (t : Nat)
    (h : B.id = target.id ∨ B.name ∈ (target.relatedNames.getD []).map RelatedName.name ∨
      target.name ∈ (B.relatedNames.getD []).map RelatedName.name) :
    B ∉ (findSimilarNames target corpus t).map SimilarName.name := by
  intro hmem
  rcases List.mem_map.mp hmem with ⟨r, hr, hrB⟩
  unfold findSimilarNames at hr
  have hr' := (mem_sortByLE simLE r _).mp hr
  rcases List.mem_filterMap.mp hr' with ⟨C, hC, hCsome⟩
  have hname := (considerCandidate_some hCsome).1
  have hCB : C = B := by rw [← hname, hrB]
  rw [hCB] at hCsome
  rw [considerCandidate_none_of_excluded h] at hCsome
  exact Option.noConfusion hCsome

/-- Witness for C5: "Annie" is declared as a diminutive of "Anne" and is
therefore never returned, although its raw score (similar spelling plus
identical literal meaning) would be far above the threshold. -/
theorem c5_related_exclusion_witness :
    annieN ∉ (findSimilarNames anneN [annieN] 60).map SimilarName.name :=
  c5_related_exclusion anneN annieN [annieN] 60 (Or.inr (Or.inl (by decide)))

/-- Claim C6: for the identically spelled "Kim" (Korean) vs "Kim"
(Germanic) pair, no signal contributes anything — the spelling comparator
itself rejects identical spellings — and `findSimilarNames` at the
default threshold 60 returns nothing. -/
theorem c6_false_cognate_kim :
    evalCandidate kimKoreanN kimGermanicN = ([], 0) ∧
    findSimilarNames kimKoreanN [kimGermanicN] 60 = [] := by
  constructor
  · decide
  · decide

/-- Claim C7: whenever `getSoundSimilarity` accepts a pair, the two names
differ after case-folding (its edit-distance test requires a positive
distance), so the false-cognate flag is false for that pair and the guard
on the 50-point spelling bonus cannot block it: the bonus and the
"similar spelling" reason are recorded exactly when `getSoundSimilarity`
is true. -/
theorem c7_spelling_guard (A B : Name) :
    (getSoundSimilarity A.name B.name = true →
      jsLower A.name ≠ jsLower B.name ∧ isFalseCognateFlag A B = false) ∧
    ("similar spelling" ∈ (evalCandidate A B).1 ↔
      getSoundSimilarity A.name B.name = true) :=
  ⟨fun h => ⟨getSoundSimilarity_ne A.name B.name h, falseCognate_false_of_sound A B h⟩,
   spelling_mem_iff A B⟩

/-- Witness for C7 on the pair "Sarah"/"Sara". -/
theorem c7_spelling_guard_witness :
    "similar spelling" ∈ (evalCandidate sarahN saraN).1 ∧
    jsLower sarahN.name ≠ jsLower saraN.name ∧ isFalseCognateFlag sarahN saraN = false :=
  ⟨(c7_spelling_guard sarahN saraN).2.mpr (by decide),
   (c7_spelling_guard sarahN saraN).1 (by decide)⟩

/-- Claim C8: the edit-distance utility gives 0 on equal strings, 3 on
the classic "kitten"/"sitting" pair, and is symmetric in its arguments. -/
theorem c8_levenshtein_props :
    (∀ s : String, levenshteinDistance s s = 0) ∧
    levenshteinDistance "kitten" "sitting" = 3 ∧
    (∀ a b : String, levenshteinDistance a b = levenshteinDistance b a) :=
  ⟨levenshteinDistance_self, by decide, levenshteinDistance_symm⟩

/-- Claim C9: `pronunciationsRhyme` satisfies, clause by clause, the
contract stated in the specification (`rhymeContract`), and in particular
"KATE"/"NATE" rhyme while "KATE"/"KATE" and "ROZE"/"LIL-ee" do not. -/
theorem c9_rhyme_contract :
    (∀ p1 p2 : Option String, pronunciationsRhyme p1 p2 = rhymeContract p1 p2) ∧
    pronunciationsRhyme (some "KATE") (some "NATE") = true ∧
    pronunciationsRhyme (some "KATE") (some "KATE") = false ∧
    pronunciationsRhyme (some "ROZE") (some "LIL-ee") = false :=
  ⟨pronunciationsRhyme_eq_contract, by decide, by decide, by decide⟩

/-- Claim C10: `getEtymologySimilarity` counts shared words per occurrence
in its first argument's token list, so it is not symmetric: an etymology
repeating "philos" three times scores 75 against one mentioning it once,
while the reverse direction scores 25. -/
theorem c10_etymology_asymmetry :
    getEtymologySimilarity (some "philos philos philos") (some "philos") = 75 ∧
    getEtymologySimilarity (some "philos") (some "philos philos philos") = 25 ∧
    getEtymologySimilarity (some "philos philos philos") (some "philos") ≠
      getEtymologySimilarity (some "philos") (some "philos philos philos") := by
  refine ⟨by decide, by decide, by decide⟩
